import Mathlib

/-!
Verification development for the a2acli streaming core.

The definitions below are a shallow embedding of the Go sources
cmd/a2acli/main.go and cmd/a2acli/tui.go: the event data model of the
a2a SDK as used by the client, the stream adapter goroutine, the TUI
projection model and its event handlers, the raw/NDJSON emitter, the
artifact materializer saveArtifact, and the transport selection logic
of createClient together with the control flow of runSend.

Modelling conventions:
- lipgloss styles add only ANSI colour codes around the rendered text;
  they are modelled as the identity, so log lines are kept as their
  plain text content.
- os.MkdirAll and os.WriteFile are external I/O; they are modelled as
  succeeding, and saveArtifact returns the path together with the byte
  content that os.WriteFile would be given.
- filepath.Join is modelled as concatenation with a "/" separator
  (path cleaning does not affect any property below), filepath.Ext and
  strings.TrimSuffix are modelled exactly on the character list, and
  the %d verb of fmt.Sprintf is modelled by a decimal representation
  function decRepr.
- json.Marshal of an event is an external library call; runRaw is
  parametrised by the marshalling function so that both its success
  and its failure behaviour can be stated.
- the spelling of the a2a.TaskState string constants follows the SDK
  names in lower case; the properties below depend only on the map
  from states to strings being fixed and injective on the enumerated
  states, not on the exact spelling.
-/

/-- Lifecycle state of a task, a2a.TaskState. The SDK defines it as a
string enumeration; the constructors below are the values the client
inspects, with `other` covering any remaining agent-defined value. -/
inductive TaskState where
  | submitted
  | working
  | completed
  | failed
  | rejected
  | other (s : String)
  deriving DecidableEq

/-- String value of a TaskState, used where the Go code converts the
state to a string for display. -/
def stateStr : TaskState → String
  | .submitted => "submitted"
  | .working => "working"
  | .completed => "completed"
  | .failed => "failed"
  | .rejected => "rejected"
  | .other s => s

/-- Terminal states as tested by runWatch and displayTaskResult:
Completed, Failed or Rejected. -/
def isTerminal : TaskState → Bool
  | .completed => true
  | .failed => true
  | .rejected => true
  | _ => false

/-- Content of one message or artifact part. The Go code inspects a
part for a2a.Text and a2a.Data; `data` carries the pretty printed
serialization of the structured payload, and `otherPart` stands for
any part kind that is neither text nor data (for example a file
part). -/
inductive PartContent where
  | text (s : String)
  | data (payload : String)
  | otherPart
  deriving DecidableEq

/-- a2a.Message: ordered parts plus the task identifier carried by the
event. -/
structure Message where
  parts : List PartContent
  taskID : String
  deriving DecidableEq

/-- a2a.TaskStatus: the state plus an optional accompanying message. -/
structure TaskStatus where
  state : TaskState
  message : Option Message
  deriving DecidableEq

/-- a2a.Artifact: name, description and ordered parts. -/
structure Artifact where
  name : String
  description : String
  parts : List PartContent
  deriving DecidableEq

/-- a2a.Event as consumed by the client: Message,
TaskStatusUpdateEvent or TaskArtifactUpdateEvent, each carrying the
task identifier reported by Event.TaskInfo().TaskID. -/
inductive Event where
  | message (m : Message)
  | statusUpdate (taskID : String) (status : TaskStatus)
  | artifactUpdate (taskID : String) (artifact : Artifact)
  deriving DecidableEq

/-- Event.TaskInfo().TaskID. -/
def Event.taskInfoID : Event → String
  | .message m => m.taskID
  | .statusUpdate tid _ => tid
  | .artifactUpdate tid _ => tid

/-- streamMsg from tui.go: one record of the internal channel, an
event together with an optional error. The event is optional because
the Go field is an interface value that is nil on error records. -/
structure StreamMsg where
  event : Option Event
  err : Option String
  deriving DecidableEq

/-- The adapter goroutine of runSend and runWatch: it forwards every
record produced by the source iterator to the channel and returns
(closing the channel via defer) immediately after forwarding a record
whose error is non-nil. The source sequence is modelled as the finite
list of records it yields; the channel content is the returned list,
after which the channel is closed. -/
def streamAdapter : List StreamMsg → List StreamMsg
  | [] => []
  | r :: rest => r :: (if r.err.isSome then [] else streamAdapter rest)

/-- Split a character list into (base, extension) following Go
filepath.Ext: the extension is the suffix beginning at the final dot
of the final path element (a dot only counts if no separator follows
it), empty if there is none. The first component is what
strings.TrimSuffix(path, ext) leaves. -/
def splitExt : List Char → List Char × List Char
  | [] => ([], [])
  | c :: rest =>
    if (splitExt rest).2 ≠ [] then (c :: (splitExt rest).1, (splitExt rest).2)
    else if c = '.' ∧ '/' ∉ rest then ([], c :: rest)
    else (c :: (splitExt rest).1, [])

/-- filepath.Ext. -/
def goExt (s : String) : String := String.mk (splitExt s.data).2

/-- strings.TrimSuffix(s, filepath.Ext(s)). -/
def goTrimExt (s : String) : String := String.mk (splitExt s.data).1

/-- Decimal digit character, used to model the %d verb. -/
def digitChar (d : Nat) : Char := Char.ofNat (48 + d)

/-- Little-endian decimal digits with explicit fuel (the fuel n is
enough since the argument shrinks by division by ten). -/
def decDigitsAux : Nat → Nat → List Nat
  | 0, _ => []
  | fuel + 1, n => if n = 0 then [] else (n % 10) :: decDigitsAux fuel (n / 10)

/-- Little-endian decimal digits of a natural number. -/
def decDigits (n : Nat) : List Nat := decDigitsAux n n

/-- Value of a little-endian digit list, used to invert decDigits. -/
def valOf (ds : List Nat) : Nat := ds.foldr (fun d acc => d + 10 * acc) 0

/-- Decimal representation of a natural number, the output of the %d
verb of fmt.Sprintf. -/
def decRepr (n : Nat) : String :=
  if n = 0 then "0" else String.mk ((decDigits n).map digitChar).reverse

/-- File name chosen by saveArtifact when an explicit output file name
is configured: occurrences with a positive index receive a _index
suffix inserted before the file extension. -/
def fNameFor (outFile : String) (index : Nat) : String :=
  if index > 0 then goTrimExt outFile ++ "_" ++ decRepr index ++ goExt outFile
  else outFile

/-- Content bytes accumulated from the parts of an artifact by
saveArtifact: each data part replaces the accumulator with its pretty
printed serialization, each text part replaces it with the text, other
parts leave it unchanged; the initial accumulator is the nil slice
(none). -/
def partsContent (parts : List PartContent) : Option String :=
  parts.foldl
    (fun acc p =>
      match p with
      | .data payload => some payload
      | .text s => some s
      | .otherPart => acc)
    none

/-- Result of a successful saveArtifact call: the returned path and
the bytes handed to os.WriteFile (a nil accumulator writes an empty
file). -/
structure SaveResult where
  path : String
  content : String
  deriving DecidableEq

/-- saveArtifact from main.go. The nowUnix parameter stands for
time.Now().Unix(), used only for the synthesized name of an unnamed
artifact when no explicit file name is configured. MkdirAll and
WriteFile are modelled as succeeding, so the error branch of the Go
function is never taken in the model. -/
def saveArtifact (outDir outFile : String) (artifact : Artifact) (index : Nat)
    (nowUnix : Nat) : Except String SaveResult :=
  let path :=
    if outFile ≠ "" then
      let fName := fNameFor outFile index
      if outDir ≠ "" then outDir ++ "/" ++ fName else fName
    else
      let dir := if outDir = "" then "." else outDir
      let filename :=
        if artifact.name ≠ "" then artifact.name
        else "artifact_" ++ decRepr nowUnix ++ "_" ++ decRepr index ++ ".txt"
      dir ++ "/" ++ filename
  Except.ok { path := path, content := (partsContent artifact.parts).getD "" }

/-- The TUI projection state, the fields of the bubbletea model in
tui.go that carry task-lifecycle meaning (spinner, width and the
quitting flag are pure presentation and are omitted). -/
structure Model where
  messages : List String
  status : String
  taskID : String
  err : Option String
  outDir : String
  deriving DecidableEq

/-- initialModel from tui.go. -/
def initialModel (outDir : String) : Model :=
  { messages := [], status := "Initializing...", taskID := "", err := none,
    outDir := outDir }

/-- Per-session configuration shared by the handlers: the global
outFile flag and the time.Now().Unix() value used by saveArtifact. -/
structure SessionCfg where
  outFile : String
  nowUnix : Nat
  deriving DecidableEq

/-- Text extracted from a status update message by handleStatusUpdate:
the first part, when present and a text part, else the empty string. -/
def statusMsgOf (st : TaskStatus) : String :=
  match st.message with
  | some msg =>
    match msg.parts with
    | PartContent.text tp :: _ => tp
    | _ => ""
  | none => ""

/-- handleStatusUpdate from tui.go: unconditionally set the status to
the string of the event state, then append one log line when the
update carries a leading text part. -/
def handleStatusUpdate (m : Model) (st : TaskStatus) : Model :=
  let m1 := { m with status := stateStr st.state }
  let sMsg := statusMsgOf st
  if sMsg ≠ "" then
    { m1 with
      messages := m1.messages ++ ["[" ++ stateStr st.state ++ "] " ++ sMsg] }
  else m1

/-- Preview truncation used by handleArtifactUpdate: 200 characters
with a truncation marker. Go truncates on bytes; character level
truncation is equivalent for the properties below. -/
def truncPreview (s : String) : String :=
  if s.length > 200 then s.take 200 ++ "..." else s

/-- handleArtifactUpdate from tui.go: header line, optional synchronous
save (always with occurrence index 0), per-part previews, then the
save report line when a save was attempted. -/
def handleArtifactUpdate (cfg : SessionCfg) (m : Model) (a : Artifact) : Model :=
  let m1 := { m with status := "Artifact Received",
                     messages := m.messages ++ ["ARTIFACT: " ++ a.name] }
  let saveMsg : String :=
    if m.outDir ≠ "" ∨ cfg.outFile ≠ "" then
      match saveArtifact m.outDir cfg.outFile a 0 cfg.nowUnix with
      | .ok r => "Saved to: " ++ r.path
      | .error e => "Error saving: " ++ e
    else ""
  let previews := a.parts.filterMap
    (fun p =>
      match p with
      | .data payload => some ("Data (Preview):\n" ++ truncPreview payload)
      | .text s => some ("Content (Preview):\n" ++ truncPreview s)
      | .otherPart => none)
  let m2 := { m1 with messages := m1.messages ++ previews }
  if saveMsg ≠ "" then { m2 with messages := m2.messages ++ [saveMsg] } else m2

/-- The error-free part of handleEvent from tui.go: capture a non-empty
task identifier, then dispatch on the event kind. -/
def applyEvent (cfg : SessionCfg) (m : Model) (e : Event) : Model :=
  let m0 := if e.taskInfoID ≠ "" then { m with taskID := e.taskInfoID } else m
  match e with
  | .message msg =>
    let lines := msg.parts.filterMap
      (fun p =>
        match p with
        | .text tp => some ("Agent: " ++ tp)
        | _ => none)
    { m0 with messages := m0.messages ++ lines, status := "Received Message" }
  | .statusUpdate _ st => handleStatusUpdate m0 st
  | .artifactUpdate _ a => handleArtifactUpdate cfg m0 a

/-- Fold of applyEvent over a finite event sequence. -/
def applyEvents (cfg : SessionCfg) (m : Model) (es : List Event) : Model :=
  es.foldl (applyEvent cfg) m

/-- handleEvent from tui.go including the error branch: an error record
stores the error in the model and quits the program (second component
true means tea.Quit). -/
def handleEvent (cfg : SessionCfg) (m : Model) (r : StreamMsg) : Model × Bool :=
  match r.err with
  | some e => ({ m with err := some e }, true)
  | none =>
    match r.event with
    | some ev => (applyEvent cfg m ev, false)
    | none => (m, false)

/-- The consuming loop of the TUI session: process channel records in
order, stopping at the first record that quits the program; an
exhausted channel (doneMsg) also ends the loop. -/
def tuiLoop (cfg : SessionCfg) (m : Model) : List StreamMsg → Model
  | [] => m
  | r :: rest =>
    match handleEvent cfg m r with
    | (m1, true) => m1
    | (m1, false) => tuiLoop cfg m1 rest

/-- runTUI from main.go: run the bubbletea program to completion over
the adapted channel records and return the final model together with
the process exit status. After p.Run returns, runTUI only prints the
follow-up hint and returns to runSend, which returns to main, and the
process exits with status 0; no non-zero exit is derived from the
error stored in the model (log.Fatalf fires only on an internal TUI
runtime failure, which does not depend on the stream and is not
modelled). -/
def runTUI (cfg : SessionCfg) (outDir : String) (records : List StreamMsg) :
    Model × Nat :=
  (tuiLoop cfg (initialModel outDir) records, 0)

/-- Observable result of runRaw: stdout lines, stderr lines, the file
writes performed, and the exit status of os.Exit when it was called
(none means runRaw returned normally and the command later exits 0). -/
structure RawResult where
  stdoutLines : List String
  stderrLines : List String
  saves : List SaveResult
  exitCode : Option Nat
  deriving DecidableEq

/-- The %q rendering of an error string inside the structured error
object (escaping of inner quotes is not modelled; no property below
depends on it). -/
def quoteStr (s : String) : String := "\"" ++ s ++ "\""

/-- The structured error line runRaw prints to stderr for a stream
error. -/
def rawErrLine (e : String) : String :=
  "\x7b\"error\": " ++ quoteStr e ++ "\x7d"

/-- The structured error line runRaw prints to stderr when an event
fails to serialize. -/
def encodeFailLine : String :=
  "\x7b\"error\": \"failed to encode event to json\"\x7d"

/-- The type switch of runRaw on *a2a.TaskArtifactUpdateEvent. -/
def artifactOfEvent : Option Event → Option Artifact
  | some (.artifactUpdate _ a) => some a
  | _ => none

/-- runRaw from main.go, parametrised by the json.Marshal outcome for
each event. For every channel record: a record with a non-nil error
prints one structured error object to stderr and calls os.Exit(1); a
record whose event fails to serialize prints one structured error line
to stderr and continues with the next record; otherwise the serialized
event is printed to stdout and, when the record is an artifact update
and an output destination is configured, the artifact is saved with
occurrence index 0. -/
def runRaw (marshal : Option Event → Option String) (outDir outFile : String)
    (nowUnix : Nat) : List StreamMsg → RawResult
  | [] => { stdoutLines := [], stderrLines := [], saves := [], exitCode := none }
  | r :: rest =>
    match r.err with
    | some e =>
      { stdoutLines := [], stderrLines := [rawErrLine e], saves := [],
        exitCode := some 1 }
    | none =>
      match marshal r.event with
      | none =>
        let t := runRaw marshal outDir outFile nowUnix rest
        { t with stderrLines := encodeFailLine :: t.stderrLines }
      | some line =>
        let saves0 : List SaveResult :=
          match artifactOfEvent r.event with
          | some a =>
            if outDir ≠ "" ∨ outFile ≠ "" then
              match saveArtifact outDir outFile a 0 nowUnix with
              | .ok sr => [sr]
              | .error _ => []
            else []
          | none => []
        let t := runRaw marshal outDir outFile nowUnix rest
        { t with stdoutLines := line :: t.stdoutLines, saves := saves0 ++ t.saves }

/-- Transport protocol bindings, a2a.TransportProtocol, with `other`
covering any further advertised binding string. -/
inductive TransportProtocol where
  | grpc
  | jsonrpc
  | httpjson
  | other (s : String)
  deriving DecidableEq

/-- strings.ToLower as used on the transport flag, modelled on the
character list so that it is kernel-evaluable (the flag values in
question are ASCII). -/
def strToLower (s : String) : String := String.mk (s.data.map Char.toLower)

/-- The switch of createClient on a non-empty transport override:
"grpc", "jsonrpc", "rest" and "httpjson" (case-insensitively) are
recognized, anything else is the configuration error
"unsupported transport: ...". -/
def validTransportOverride (s : String) : Except String TransportProtocol :=
  match strToLower s with
  | "grpc" => .ok .grpc
  | "jsonrpc" => .ok .jsonrpc
  | "rest" => .ok .httpjson
  | "httpjson" => .ok .httpjson
  | _ => .error ("unsupported transport: " ++ s)

/-- The dynamic selection branch of createClient: the selected
transport starts as the JSONRPC default, the advertised bindings of
the agent card are collected into a set, and the first present among
gRPC, JSON-RPC, HTTP+JSON (in that priority order) overrides the
default. -/
def autoSelectTransport (advertised : List TransportProtocol) : TransportProtocol :=
  if advertised.contains .grpc then .grpc
  else if advertised.contains .jsonrpc then .jsonrpc
  else if advertised.contains .httpjson then .httpjson
  else .jsonrpc

/-- Transport determination of createClient: a non-empty override is
validated, otherwise the transport is auto-selected from the
advertised bindings. -/
def createClientTransport (override : String)
    (advertised : List TransportProtocol) : Except String TransportProtocol :=
  if override ≠ "" then validTransportOverride override
  else .ok (autoSelectTransport advertised)

/-- Selection following the words of the specification, for comparison
with autoSelectTransport: choose the first binding of the fixed
priority list present in the advertised set, and fall back to JSON-RPC
when the advertised set is empty or none match. -/
def specTransportPriority : List TransportProtocol := [.grpc, .jsonrpc, .httpjson]

/-- Spec-worded auto-selection, see specTransportPriority. -/
def specAutoSelect (advertised : List TransportProtocol) : TransportProtocol :=
  (specTransportPriority.find? (fun t => advertised.contains t)).getD .jsonrpc

/-- Externally visible steps of runSend in order: resolving the agent
card over the network, then either the fatalf exit after a failed
createClient, or opening the streaming call. -/
inductive SendStep where
  | resolveCardNet
  | exitNonzero (code : Nat)
  | openStreamNet
  deriving DecidableEq

/-- Step classification: card resolution and the streaming call touch
the network, the fatalf exit does not. -/
def isNetworkStep : SendStep → Bool
  | .resolveCardNet => true
  | .openStreamNet => true
  | .exitNonzero _ => false

/-- The step trace of runSend from main.go: the agent card is resolved
first (a network fetch of the card document), then createClient
validates the transport; on a validation error fatalf exits the
process with status 1 and no stream is opened, otherwise the streaming
call opens the event stream. -/
def runSendSteps (override : String) (advertised : List TransportProtocol) :
    List SendStep :=
  SendStep.resolveCardNet ::
    (match createClientTransport override advertised with
     | .error _ => [SendStep.exitNonzero 1]
     | .ok _ => [SendStep.openStreamNet])

/-- Concrete event used by witnesses: a plain agent text message. -/
def msgEv : Event := Event.message { parts := [PartContent.text "hi"], taskID := "t" }

/-- C1 counterexample input: a terminal status update followed by a
non-terminal one that carries a text message. -/
def c1SeqEvents : List Event :=
  [Event.statusUpdate "t1" { state := TaskState.completed, message := none },
   Event.statusUpdate "t1"
     { state := TaskState.working,
       message := some { parts := [PartContent.text "still going"], taskID := "t1" } }]

/-- C5 inputs: a terminal status update carrying a text message. -/
def c5St : TaskStatus :=
  { state := TaskState.completed,
    message := some { parts := [PartContent.text "done"], taskID := "t1" } }

/-- C5 counterexample event built from c5St. -/
def c5Event : Event := Event.statusUpdate "t1" c5St

/-- C3 counterexample artifacts: two artifact occurrences sharing the
name out.json with distinct contents. -/
def c3Art1 : Artifact := { name := "out.json", description := "", parts := [PartContent.text "alpha"] }

/-- Second C3 artifact occurrence. -/
def c3Art2 : Artifact := { name := "out.json", description := "", parts := [PartContent.text "beta"] }

/-- C3 counterexample stream: the two artifact updates as adapted
channel records. -/
def c3Records : List StreamMsg :=
  [{ event := some (Event.artifactUpdate "t" c3Art1), err := none },
   { event := some (Event.artifactUpdate "t" c3Art2), err := none }]

/-- C8 witness input: an error-free source. -/
def c8CleanSrc : List StreamMsg :=
  [{ event := some msgEv, err := none }, { event := some msgEv, err := none }]

/-- C8 witness input: a source whose second record carries an error and
which keeps producing afterwards. -/
def c8ErrSrc : List StreamMsg :=
  [{ event := some msgEv, err := none },
   { event := none, err := some "connection reset" },
   { event := some msgEv, err := none }]

/-- C9 witness input: an artifact whose only part is neither text nor
data. -/
def c9Art : Artifact := { name := "weird.bin", description := "", parts := [PartContent.otherPart] }

/-- The status field after handleStatusUpdate is always the string of
the state carried by the update. -/
theorem handleStatusUpdate_status (m : Model) (st : TaskStatus) :
    (handleStatusUpdate m st).status = stateStr st.state := by
  unfold handleStatusUpdate
  by_cases h : statusMsgOf st = "" <;> simp [h]

/-- handleStatusUpdate never changes the task identifier. -/
theorem handleStatusUpdate_taskID (m : Model) (st : TaskStatus) :
    (handleStatusUpdate m st).taskID = m.taskID := by
  unfold handleStatusUpdate
  by_cases h : statusMsgOf st = "" <;> simp [h]

/-- The log after handleStatusUpdate: one line appended exactly when
the update carries a leading text part. -/
theorem handleStatusUpdate_messages (m : Model) (st : TaskStatus) :
    (handleStatusUpdate m st).messages =
      m.messages ++
        (if statusMsgOf st = "" then []
         else ["[" ++ stateStr st.state ++ "] " ++ statusMsgOf st]) := by
  unfold handleStatusUpdate
  by_cases h : statusMsgOf st = "" <;> simp [h]

/-- handleArtifactUpdate never changes the task identifier. -/
theorem handleArtifactUpdate_taskID (cfg : SessionCfg) (m : Model) (a : Artifact) :
    (handleArtifactUpdate cfg m a).taskID = m.taskID := by
  unfold handleArtifactUpdate
  dsimp only
  split <;> rfl

/-- Status updates set the projected phase regardless of the previous
model state. -/
theorem applyEvent_statusUpdate_status (cfg : SessionCfg) (m : Model)
    (tid : String) (st : TaskStatus) :
    (applyEvent cfg m (Event.statusUpdate tid st)).status = stateStr st.state := by
  unfold applyEvent
  exact handleStatusUpdate_status _ _

/-- Log effect of a status update, independent of the previous status. -/
theorem applyEvent_statusUpdate_messages (cfg : SessionCfg) (m : Model)
    (tid : String) (st : TaskStatus) :
    (applyEvent cfg m (Event.statusUpdate tid st)).messages =
      m.messages ++
        (if statusMsgOf st = "" then []
         else ["[" ++ stateStr st.state ++ "] " ++ statusMsgOf st]) := by
  unfold applyEvent
  dsimp only
  rw [handleStatusUpdate_messages]
  split <;> rfl

/-- C1 (counterexample). The code has no terminal-phase latch: after a
Completed status update, a later Working status update with a text
message still changes the projected phase to working and still appends
a log line, so the final phase is not the terminal phase. -/
theorem c1_counterexample :
    (applyEvents { outFile := "", nowUnix := 0 } (initialModel "") c1SeqEvents).status = "working" ∧
    (applyEvents { outFile := "", nowUnix := 0 } (initialModel "") c1SeqEvents).status ≠ stateStr TaskState.completed ∧
    (applyEvents { outFile := "", nowUnix := 0 } (initialModel "") c1SeqEvents).messages.length = 1 := by
  refine ⟨rfl, by decide, rfl⟩

/-- C1 (amended): the projection applies every StatusUpdate
unconditionally, so after any finite sequence of StatusUpdate events
the projected phase equals the phase of the last event of the
sequence, terminal or not; a terminal phase is final only when no
later StatusUpdate follows it. -/
theorem c1_amended (cfg : SessionCfg) (m : Model)
    (updates : List (String × TaskStatus)) (tid : String) (st : TaskStatus) :
    (applyEvents cfg m
        ((updates ++ [(tid, st)]).map (fun p => Event.statusUpdate p.1 p.2))).status =
      stateStr st.state := by
  simp only [applyEvents, List.map_append, List.foldl_append, List.map_cons,
    List.map_nil, List.foldl_cons, List.foldl_nil]
  exact applyEvent_statusUpdate_status _ _ _ _

/-- C4 (counterexample). The task identifier is not write-once: a later
event carrying a different non-empty identifier overwrites it. -/
theorem c4_counterexample :
    (applyEvents { outFile := "", nowUnix := 0 } (initialModel "")
        [Event.statusUpdate "a" { state := TaskState.working, message := none },
         Event.statusUpdate "b" { state := TaskState.working, message := none }]).taskID = "b" ∧
    (applyEvents { outFile := "", nowUnix := 0 } (initialModel "")
        [Event.statusUpdate "a" { state := TaskState.working, message := none },
         Event.statusUpdate "b" { state := TaskState.working, message := none }]).taskID ≠ "a" := by
  refine ⟨rfl, by decide⟩

/-- C4 (amended): the stored task identifier always follows the most
recent event with a non-empty identifier; an event with an empty
identifier leaves it unchanged, and any event with a non-empty
identifier overwrites it. -/
theorem c4_amended (cfg : SessionCfg) (m : Model) (e : Event) :
    (applyEvent cfg m e).taskID =
      if e.taskInfoID = "" then m.taskID else e.taskInfoID := by
  cases e with
  | message msg =>
    by_cases h : msg.taskID = "" <;>
      simp [applyEvent, Event.taskInfoID, h]
  | statusUpdate tid st =>
    by_cases h : tid = "" <;>
      simp [applyEvent, Event.taskInfoID, h, handleStatusUpdate_taskID]
  | artifactUpdate tid a =>
    by_cases h : tid = "" <;>
      simp [applyEvent, Event.taskInfoID, h, handleArtifactUpdate_taskID]

/-- C5 (counterexample). Applying the same terminal StatusUpdate (one
carrying a text message) twice appends two log lines, not at most
one. -/
theorem c5_counterexample :
    ¬ ((applyEvents { outFile := "", nowUnix := 0 } (initialModel "")
          [c5Event, c5Event]).messages.length ≤ 1) ∧
    (applyEvents { outFile := "", nowUnix := 0 } (initialModel "")
        [c5Event, c5Event]).messages.length = 2 := by
  refine ⟨by decide, rfl⟩

/-- C5 (amended): a duplicated terminal StatusUpdate causes no further
phase change (the second application leaves the status equal), but the
log is appended once per application whenever the update carries a
text message, so the duplicate produces two log lines; only a
message-less duplicate is a no-op on the log. -/
theorem c5_amended (cfg : SessionCfg) (m : Model) (tid : String) (st : TaskStatus)
    (hterm : isTerminal st.state = true) :
    (applyEvent cfg (applyEvent cfg m (Event.statusUpdate tid st))
        (Event.statusUpdate tid st)).status =
      (applyEvent cfg m (Event.statusUpdate tid st)).status ∧
    (applyEvent cfg (applyEvent cfg m (Event.statusUpdate tid st))
        (Event.statusUpdate tid st)).messages.length =
      m.messages.length + (if statusMsgOf st = "" then 0 else 2) := by
  constructor
  · rw [applyEvent_statusUpdate_status, applyEvent_statusUpdate_status]
  · rw [applyEvent_statusUpdate_messages, applyEvent_statusUpdate_messages]
    by_cases h : statusMsgOf st = "" <;> simp [h]

/-- C5 witness: the amended statement instantiated at the concrete
terminal update c5St. -/
theorem c5_amended_witness :
    isTerminal c5St.state = true ∧
    ((applyEvent { outFile := "", nowUnix := 0 }
        (applyEvent { outFile := "", nowUnix := 0 } (initialModel "")
          (Event.statusUpdate "t1" c5St))
        (Event.statusUpdate "t1" c5St)).status =
      (applyEvent { outFile := "", nowUnix := 0 } (initialModel "")
        (Event.statusUpdate "t1" c5St)).status ∧
    (applyEvent { outFile := "", nowUnix := 0 }
        (applyEvent { outFile := "", nowUnix := 0 } (initialModel "")
          (Event.statusUpdate "t1" c5St))
        (Event.statusUpdate "t1" c5St)).messages.length =
      (initialModel "").messages.length + (if statusMsgOf c5St = "" then 0 else 2)) :=
  ⟨by decide, c5_amended { outFile := "", nowUnix := 0 } (initialModel "") "t1" c5St (by decide)⟩

/-- C7 (confirmed): the dynamic transport selection of createClient
coincides with the specification wording, first advertised binding in
the priority order gRPC, JSON-RPC, HTTP+JSON, with JSON-RPC as the
fallback when the advertised set is empty or none match; in
particular the empty advertised set yields JSON-RPC. -/
theorem c7_auto_selection (advertised : List TransportProtocol) :
    autoSelectTransport advertised = specAutoSelect advertised ∧
    autoSelectTransport [] = TransportProtocol.jsonrpc := by
  refine ⟨?_, rfl⟩
  by_cases hg : TransportProtocol.grpc ∈ advertised <;>
    by_cases hj : TransportProtocol.jsonrpc ∈ advertised <;>
      by_cases hh : TransportProtocol.httpjson ∈ advertised <;>
        simp [autoSelectTransport, specAutoSelect, specTransportPriority,
          List.find?, List.elem_eq_mem, hg, hj, hh]

/-- C6 (counterexample). With the unrecognized forced transport "quic"
the process does exit with status 1 and never opens a stream, but the
agent card has already been resolved over the network before the
override is validated, so the negotiation failure does not happen
before any network call. -/
theorem c6_counterexample :
    runSendSteps "quic" [] = [SendStep.resolveCardNet, SendStep.exitNonzero 1] ∧
    (runSendSteps "quic" []).head? = some SendStep.resolveCardNet ∧
    isNetworkStep SendStep.resolveCardNet = true ∧
    SendStep.resolveCardNet ∈ runSendSteps "quic" [] := by
  refine ⟨by decide, by decide, rfl, by decide⟩

/-- C6 (amended): for every forced transport override rejected by
createClient (any value outside grpc, jsonrpc, rest, httpjson
case-insensitively), the process exits with status 1 and no event
stream is ever opened; the validation happens after the agent card has
been resolved, so one network call (the card fetch) precedes the
failure. -/
theorem c6_amended (override : String) (advertised : List TransportProtocol)
    (msg : String)
    (h : createClientTransport override advertised = Except.error msg) :
    runSendSteps override advertised =
      [SendStep.resolveCardNet, SendStep.exitNonzero 1] ∧
    SendStep.openStreamNet ∉ runSendSteps override advertised := by
  constructor
  · simp [runSendSteps, h]
  · simp [runSendSteps, h]

/-- C6 witness: the amended statement instantiated at the unrecognized
override "quic". -/
theorem c6_amended_witness :
    createClientTransport "quic" [] = Except.error "unsupported transport: quic" ∧
    (runSendSteps "quic" [] = [SendStep.resolveCardNet, SendStep.exitNonzero 1] ∧
     SendStep.openStreamNet ∉ runSendSteps "quic" []) :=
  ⟨by rfl, c6_amended "quic" [] "unsupported transport: quic" (by rfl)⟩

/-- The adapter output is a prefix of the source sequence: records are
delivered in source order with nothing inserted or reordered. -/
theorem streamAdapter_isPrefix (src : List StreamMsg) : streamAdapter src <+: src := by
  induction src with
  | nil => exact ⟨[], rfl⟩
  | cons r rest ih =>
    by_cases h : r.err.isSome
    · exact ⟨rest, by simp [streamAdapter, h]⟩
    · obtain ⟨t, ht⟩ := ih
      exact ⟨t, by simp [streamAdapter, h, ht]⟩

/-- An error-free source is forwarded in full, after which the channel
is closed cleanly. -/
theorem streamAdapter_clean (src : List StreamMsg)
    (h : ∀ r ∈ src, r.err = none) : streamAdapter src = src := by
  induction src with
  | nil => rfl
  | cons r rest ih =>
    have hr : r.err = none := h r (by simp)
    simp [streamAdapter, hr]
    exact ih (fun s hs => h s (by simp [hs]))

/-- No record is ever delivered after a record carrying an error. -/
theorem streamAdapter_err_last (src : List StreamMsg) :
    ∀ xs e ys, streamAdapter src = xs ++ e :: ys → e.err.isSome → ys = [] := by
  induction src with
  | nil =>
    intro xs e ys h _
    cases xs <;> simp [streamAdapter] at h
  | cons r rest ih =>
    intro xs e ys h he
    by_cases hr : r.err.isSome
    · simp [streamAdapter, hr] at h
      cases xs with
      | nil =>
        simp at h
        exact h.2
      | cons x xs2 =>
        simp at h
    · simp [streamAdapter, hr] at h
      cases xs with
      | nil =>
        simp at h
        rcases h with ⟨h1, h2⟩
        rw [← h1] at he
        exact absurd he hr
      | cons x xs2 =>
        simp at h
        exact ih xs2 e ys h.2 he

/-- When the source produces an error record, the last delivered record
carries an error. -/
theorem streamAdapter_err_getLast (src : List StreamMsg)
    (h : ∃ r ∈ src, r.err.isSome) :
    ∃ l, (streamAdapter src).getLast? = some l ∧ l.err.isSome := by
  induction src with
  | nil => simp at h
  | cons r rest ih =>
    by_cases hr : r.err.isSome
    · exact ⟨r, by simp [streamAdapter, hr], hr⟩
    · have hrest : ∃ s ∈ rest, s.err.isSome := by
        rcases h with ⟨s, hs, hse⟩
        rcases List.mem_cons.mp hs with h1 | h2
        · exact absurd (h1 ▸ hse) hr
        · exact ⟨s, h2, hse⟩
      obtain ⟨l, hl1, hl2⟩ := ih hrest
      refine ⟨l, ?_, hl2⟩
      have hne : streamAdapter rest ≠ [] := by
        intro hnil
        rw [hnil] at hl1
        simp at hl1
      cases hsa : streamAdapter rest with
      | nil => exact absurd hsa hne
      | cons b bs =>
        rw [hsa] at hl1
        simp [streamAdapter, hr, hsa, List.getLast?_cons_cons]
        exact hl1

/-- C8 (confirmed): the adapter delivers the source records in order (a
prefix of the source); an error-free source is delivered in full and
the channel closed cleanly; no record is ever delivered after an error
record; and when the source errors, the last delivered record is the
one carrying the error. -/
theorem c8_adapter_termination (src : List StreamMsg) :
    streamAdapter src <+: src ∧
    ((∀ r ∈ src, r.err = none) → streamAdapter src = src) ∧
    (∀ xs e ys, streamAdapter src = xs ++ e :: ys → e.err.isSome → ys = []) ∧
    ((∃ r ∈ src, r.err.isSome) →
      ∃ l, (streamAdapter src).getLast? = some l ∧ l.err.isSome) :=
  ⟨streamAdapter_isPrefix src, streamAdapter_clean src,
   streamAdapter_err_last src, streamAdapter_err_getLast src⟩

/-- C8 witness: the adapter statement applied to a concrete clean
source and a concrete erroring source. -/
theorem c8_adapter_termination_witness :
    streamAdapter c8CleanSrc = c8CleanSrc ∧
    (∃ l, (streamAdapter c8ErrSrc).getLast? = some l ∧ l.err.isSome) ∧
    ([] : List StreamMsg) = [] :=
  ⟨(c8_adapter_termination c8CleanSrc).2.1 (by decide),
   (c8_adapter_termination c8ErrSrc).2.2.2 (by decide),
   (c8_adapter_termination c8ErrSrc).2.2.1 [{ event := some msgEv, err := none }]
     { event := none, err := some "connection reset" } [] (by decide) (by decide)⟩

/-- The TUI loop records the first stream error in the model: after an
error-free prefix, the error record sets the model error field and the
loop stops. -/
theorem tuiLoop_err (cfg : SessionCfg) (m : Model) (pre : List StreamMsg)
    (e : String) (post : List StreamMsg)
    (hpre : ∀ r ∈ pre, r.err = none) :
    (tuiLoop cfg m (pre ++ { event := none, err := some e } :: post)).err = some e := by
  induction pre generalizing m with
  | nil => simp [tuiLoop, handleEvent]
  | cons r pre2 ih =>
    have hr : r.err = none := hpre r (by simp)
    have hpre2 : ∀ s ∈ pre2, s.err = none := fun s hs => hpre s (by simp [hs])
    cases hev : r.event with
    | some ev =>
      simp only [List.cons_append, tuiLoop, handleEvent, hr, hev]
      exact ih _ hpre2
    | none =>
      simp only [List.cons_append, tuiLoop, handleEvent, hr, hev]
      exact ih _ hpre2

/-- runRaw with an error-free record stream returns normally: os.Exit
is never called. -/
theorem runRaw_exit_none (marshal : Option Event → Option String)
    (outDir outFile : String) (nowUnix : Nat) (rs : List StreamMsg)
    (h : ∀ s ∈ rs, s.err = none) :
    (runRaw marshal outDir outFile nowUnix rs).exitCode = none := by
  induction rs with
  | nil => rfl
  | cons r rest ih =>
    have hr : r.err = none := h r (by simp)
    have hrest : ∀ s ∈ rest, s.err = none := fun s hs => h s (by simp [hs])
    cases hm : marshal r.event with
    | none => simp only [runRaw, hr, hm]; exact ih hrest
    | some line => simp only [runRaw, hr, hm]; exact ih hrest

/-- runRaw on a stream whose first error record follows an error-free
prefix: the error record produces the structured error line on stderr,
the exit status 1, and nothing after the error record is consumed. -/
theorem runRaw_err (marshal : Option Event → Option String)
    (outDir outFile : String) (nowUnix : Nat) (pre : List StreamMsg)
    (e : String) (post : List StreamMsg)
    (hpre : ∀ r ∈ pre, r.err = none) :
    (runRaw marshal outDir outFile nowUnix
        (pre ++ { event := none, err := some e } :: post)).exitCode = some 1 ∧
    (runRaw marshal outDir outFile nowUnix
        (pre ++ { event := none, err := some e } :: post)).stderrLines.getLast? =
      some (rawErrLine e) ∧
    runRaw marshal outDir outFile nowUnix
        (pre ++ { event := none, err := some e } :: post) =
      runRaw marshal outDir outFile nowUnix (pre ++ [{ event := none, err := some e }]) := by
  induction pre with
  | nil => exact ⟨rfl, rfl, rfl⟩
  | cons r pre2 ih =>
    have hr : r.err = none := hpre r (by simp)
    have hpre2 : ∀ s ∈ pre2, s.err = none := fun s hs => hpre s (by simp [hs])
    obtain ⟨ih1, ih2, ih3⟩ := ih hpre2
    cases hm : marshal r.event with
    | none =>
      refine ⟨by simp only [List.cons_append, runRaw, hr, hm]; exact ih1, ?_, ?_⟩
      · simp only [List.cons_append, runRaw, hr, hm]
        have hne : (runRaw marshal outDir outFile nowUnix
            (pre2 ++ { event := none, err := some e } :: post)).stderrLines ≠ [] := by
          intro hnil
          rw [hnil] at ih2
          simp at ih2
        cases hsl : (runRaw marshal outDir outFile nowUnix
            (pre2 ++ { event := none, err := some e } :: post)).stderrLines with
        | nil => exact absurd hsl hne
        | cons b bs =>
          rw [hsl] at ih2
          simpa [List.getLast?_cons_cons] using ih2
      · simp only [List.cons_append, runRaw, hr, hm, List.append_eq]
        rw [ih3]
    | some line =>
      refine ⟨by simp only [List.cons_append, runRaw, hr, hm]; exact ih1, ?_, ?_⟩
      · simp only [List.cons_append, runRaw, hr, hm]
        exact ih2
      · simp only [List.cons_append, runRaw, hr, hm, List.append_eq]
        rw [ih3]

/-- C2 (counterexample). An interactive session that receives a stream
error renders the error in the final view (the model error field is
set) but the process then exits with status 0, not a non-zero
status. -/
theorem c2_counterexample :
    (runTUI { outFile := "", nowUnix := 0 } ""
        [{ event := none, err := some "connection reset" }]).2 = 0 ∧
    (runTUI { outFile := "", nowUnix := 0 } ""
        [{ event := none, err := some "connection reset" }]).1.err =
      some "connection reset" := by
  exact ⟨rfl, rfl⟩

/-- C2 (amended): a stream error is rendered once through the active
renderer in both modes, but only raw mode exits non-zero: runRaw
prints the structured error object as the last stderr line, calls
os.Exit(1) and consumes nothing after the error record, while the
interactive mode stores the error in the final model (rendered with
the error styling by View) and the process exits with status 0. -/
theorem c2_amended (marshal : Option Event → Option String)
    (outDir outFile : String) (nowUnix : Nat) (pre : List StreamMsg)
    (e : String) (post : List StreamMsg)
    (hpre : ∀ r ∈ pre, r.err = none) :
    ((runRaw marshal outDir outFile nowUnix
        (pre ++ { event := none, err := some e } :: post)).exitCode = some 1 ∧
     (runRaw marshal outDir outFile nowUnix
        (pre ++ { event := none, err := some e } :: post)).stderrLines.getLast? =
       some (rawErrLine e) ∧
     runRaw marshal outDir outFile nowUnix
        (pre ++ { event := none, err := some e } :: post) =
       runRaw marshal outDir outFile nowUnix (pre ++ [{ event := none, err := some e }])) ∧
    ((runTUI { outFile := outFile, nowUnix := nowUnix } outDir
        (pre ++ { event := none, err := some e } :: post)).2 = 0 ∧
     (runTUI { outFile := outFile, nowUnix := nowUnix } outDir
        (pre ++ { event := none, err := some e } :: post)).1.err = some e) :=
  ⟨runRaw_err marshal outDir outFile nowUnix pre e post hpre,
   rfl,
   tuiLoop_err { outFile := outFile, nowUnix := nowUnix } (initialModel outDir)
     pre e post hpre⟩

/-- C2 witness: the amended statement at a concrete session with one
successful event before the error. -/
theorem c2_amended_witness :
    (((runRaw (fun _ => some "x") "" "" 0
        ([{ event := some msgEv, err := none }] ++
          { event := none, err := some "boom" } :: [{ event := some msgEv, err := none }])).exitCode = some 1 ∧
      (runRaw (fun _ => some "x") "" "" 0
        ([{ event := some msgEv, err := none }] ++
          { event := none, err := some "boom" } :: [{ event := some msgEv, err := none }])).stderrLines.getLast? =
        some (rawErrLine "boom") ∧
      runRaw (fun _ => some "x") "" "" 0
        ([{ event := some msgEv, err := none }] ++
          { event := none, err := some "boom" } :: [{ event := some msgEv, err := none }]) =
        runRaw (fun _ => some "x") "" "" 0
          ([{ event := some msgEv, err := none }] ++ [{ event := none, err := some "boom" }])) ∧
     ((runTUI { outFile := "", nowUnix := 0 } ""
        ([{ event := some msgEv, err := none }] ++
          { event := none, err := some "boom" } :: [{ event := some msgEv, err := none }])).2 = 0 ∧
      (runTUI { outFile := "", nowUnix := 0 } ""
        ([{ event := some msgEv, err := none }] ++
          { event := none, err := some "boom" } :: [{ event := some msgEv, err := none }])).1.err = some "boom")) :=
  c2_amended (fun _ => some "x") "" "" 0 [{ event := some msgEv, err := none }]
    "boom" [{ event := some msgEv, err := none }] (by decide)

/-- C10 (confirmed): in raw mode a record whose event fails to
serialize contributes exactly one structured error line to stderr and
processing continues with the remaining records unchanged; and a
serialization failure alone never produces a non-zero exit, since
os.Exit is reached only for stream error records. -/
theorem c10_marshal_failure (marshal : Option Event → Option String)
    (outDir outFile : String) (nowUnix : Nat) (r : StreamMsg)
    (rest : List StreamMsg) (hr : r.err = none) (hm : marshal r.event = none) :
    runRaw marshal outDir outFile nowUnix (r :: rest) =
      { runRaw marshal outDir outFile nowUnix rest with
          stderrLines := encodeFailLine ::
            (runRaw marshal outDir outFile nowUnix rest).stderrLines } ∧
    ((∀ s ∈ rest, s.err = none) →
      (runRaw marshal outDir outFile nowUnix (r :: rest)).exitCode = none) := by
  constructor
  · simp only [runRaw, hr, hm]
  · intro hrest
    exact runRaw_exit_none marshal outDir outFile nowUnix (r :: rest)
      (fun s hs => by
        rcases List.mem_cons.mp hs with h1 | h2
        · exact h1 ▸ hr
        · exact hrest s h2)

/-- C10 witness: the statement at a marshaller that always fails, one
unserializable record followed by one further record. -/
theorem c10_marshal_failure_witness :
    runRaw (fun _ => none) "" "" 0
        ({ event := some msgEv, err := none } :: [{ event := some msgEv, err := none }]) =
      { runRaw (fun _ => none) "" "" 0 [{ event := some msgEv, err := none }] with
          stderrLines := encodeFailLine ::
            (runRaw (fun _ => none) "" "" 0
              [{ event := some msgEv, err := none }]).stderrLines } ∧
    (runRaw (fun _ => none) "" "" 0
        ({ event := some msgEv, err := none } :: [{ event := some msgEv, err := none }])).exitCode = none :=
  ⟨(c10_marshal_failure (fun _ => none) "" "" 0 { event := some msgEv, err := none }
      [{ event := some msgEv, err := none }] rfl rfl).1,
   (c10_marshal_failure (fun _ => none) "" "" 0 { event := some msgEv, err := none }
      [{ event := some msgEv, err := none }] rfl rfl).2 (by decide)⟩

/-- Folding the saveArtifact content accumulator over parts that are
neither text nor data leaves the accumulator unchanged. -/
theorem partsFold_other (l : List PartContent) (acc : Option String)
    (h : ∀ p ∈ l, p = PartContent.otherPart) :
    l.foldl
      (fun acc p =>
        match p with
        | .data payload => some payload
        | .text s => some s
        | .otherPart => acc)
      acc = acc := by
  induction l generalizing acc with
  | nil => rfl
  | cons p l2 ih =>
    have hp : p = PartContent.otherPart := h p (by simp)
    subst hp
    exact ih acc (fun q hq => h q (by simp [hq]))

/-- C9 (confirmed): an artifact whose parts contain neither a text nor
a data part is still saved successfully: saveArtifact returns the
computed path with no error and hands os.WriteFile the empty (nil)
content, indistinguishable at its interface from a successful
non-empty write. -/
theorem c9_empty_artifact (outDir outFile : String) (a : Artifact)
    (index nowUnix : Nat) (h : ∀ p ∈ a.parts, p = PartContent.otherPart) :
    ∃ r, saveArtifact outDir outFile a index nowUnix = Except.ok r ∧
      r.content = "" := by
  have hp : partsContent a.parts = none := partsFold_other a.parts none h
  refine ⟨_, rfl, ?_⟩
  simp [saveArtifact, hp]

/-- C9 witness: the statement at a concrete artifact with one file-like
part. -/
theorem c9_empty_artifact_witness :
    (∀ p ∈ c9Art.parts, p = PartContent.otherPart) ∧
    (∃ r, saveArtifact "out" "" c9Art 0 0 = Except.ok r ∧ r.content = "") :=
  ⟨by decide, c9_empty_artifact "out" "" c9Art 0 0 (by decide)⟩

/-- C3 (counterexample). Two streamed artifact updates saved in raw
mode under the explicit file override out.json both receive occurrence
index 0, so both writes target the same path out.json; the second
occurrence does not receive an out_1.json name and the paths are not
pairwise distinct. -/
theorem c3_counterexample :
    ((runRaw (fun _ => some "event") "" "out.json" 0 c3Records).saves.map
        SaveResult.path) = ["out.json", "out.json"] ∧
    ¬ (((runRaw (fun _ => some "event") "" "out.json" 0 c3Records).saves.map
        SaveResult.path).Nodup) := by
  refine ⟨rfl, by decide⟩

/-- Strings with equal character data are equal. -/
theorem str_ext {s t : String} (h : s.data = t.data) : s = t := by
  cases s
  cases t
  exact congrArg String.mk h

/-- Character data of a string concatenation. -/
theorem str_data_append (s t : String) : (s ++ t).data = s.data ++ t.data := rfl

/-- The two components of splitExt reassemble to the input, so the
extension really is a suffix and the base the corresponding prefix. -/
theorem splitExt_append (l : List Char) : (splitExt l).1 ++ (splitExt l).2 = l := by
  induction l with
  | nil => rfl
  | cons c rest ih =>
    by_cases h1 : (splitExt rest).2 ≠ []
    · simp [splitExt, h1, List.cons_append, ih]
    · by_cases h2 : c = '.' ∧ '/' ∉ rest
      · simp [splitExt, h1, h2]
      · have h1e : (splitExt rest).2 = [] := not_not.mp h1
        have ihe : (splitExt rest).1 = rest := by
          have h3 := ih
          rw [h1e] at h3
          simpa using h3
        simp [splitExt, h1, h2, ihe]

/-- digitChar is injective on decimal digits. -/
theorem digitChar_inj_lt : ∀ a < 10, ∀ b < 10, digitChar a = digitChar b → a = b := by
  decide

/-- Mapping digitChar over digit lists is injective. -/
theorem mapDigit_inj : ∀ l1 l2 : List Nat, (∀ x ∈ l1, x < 10) → (∀ x ∈ l2, x < 10) →
    l1.map digitChar = l2.map digitChar → l1 = l2 := by
  intro l1
  induction l1 with
  | nil =>
    intro l2 _ _ h
    cases l2 with
    | nil => rfl
    | cons b l2b => simp at h
  | cons a l1a ih =>
    intro l2 hb1 hb2 h
    cases l2 with
    | nil => simp at h
    | cons b l2b =>
      simp only [List.map_cons, List.cons.injEq] at h
      have ha : a < 10 := hb1 a (by simp)
      have hb : b < 10 := hb2 b (by simp)
      have hab : a = b := digitChar_inj_lt a ha b hb h.1
      have htail := ih l2b (fun x hx => hb1 x (by simp [hx]))
        (fun x hx => hb2 x (by simp [hx])) h.2
      rw [hab, htail]

/-- Folding valOf over the fuel-based digits recovers the number. -/
theorem decDigitsAux_val : ∀ fuel n, n ≤ fuel → valOf (decDigitsAux fuel n) = n := by
  intro fuel
  induction fuel with
  | zero =>
    intro n hn
    have h0 : n = 0 := by omega
    subst h0
    rfl
  | succ f ih =>
    intro n hn
    by_cases h0 : n = 0
    · subst h0
      simp [decDigitsAux, valOf]
    · have hdiv : n / 10 ≤ f := by
        have := Nat.div_lt_self (Nat.pos_of_ne_zero h0) (by norm_num : 1 < 10)
        omega
      have hrec := ih (n / 10) hdiv
      simp only [decDigitsAux, if_neg h0, valOf, List.foldr_cons]
      simp only [valOf] at hrec
      rw [hrec]
      omega

/-- Every digit produced by decDigitsAux is a decimal digit. -/
theorem decDigitsAux_bound : ∀ fuel n, ∀ d ∈ decDigitsAux fuel n, d < 10 := by
  intro fuel
  induction fuel with
  | zero => intro n d hd; simp [decDigitsAux] at hd
  | succ f ih =>
    intro n d hd
    by_cases h0 : n = 0
    · simp [decDigitsAux, h0] at hd
    · simp only [decDigitsAux, if_neg h0, List.mem_cons] at hd
      rcases hd with h1 | h2
      · omega
      · exact ih (n / 10) d h2

/-- The decimal representation is injective on positive numbers. -/
theorem decRepr_inj_pos (i j : Nat) (hi : i ≠ 0) (hj : j ≠ 0)
    (h : decRepr i = decRepr j) : i = j := by
  simp only [decRepr, if_neg hi, if_neg hj] at h
  have hdata : ((decDigits i).map digitChar).reverse =
      ((decDigits j).map digitChar).reverse := congrArg String.data h
  have hmap := List.reverse_inj.mp hdata
  have hdig := mapDigit_inj _ _
    (fun x hx => decDigitsAux_bound i i x hx)
    (fun x hx => decDigitsAux_bound j j x hx)
    hmap
  have hv := congrArg valOf hdig
  rw [decDigitsAux_val i i (Nat.le_refl i), decDigitsAux_val j j (Nat.le_refl j)] at hv
  exact hv

/-- The first occurrence keeps the explicit file name unchanged. -/
theorem fNameFor_zero (outFile : String) : fNameFor outFile 0 = outFile := rfl

/-- Character data of the suffixed file name for a positive occurrence
index. -/
theorem fNameFor_pos_data (outFile : String) (k : Nat) (hk : 0 < k) :
    (fNameFor outFile k).data =
      (splitExt outFile.data).1 ++
        '_' :: ((decRepr k).data ++ (splitExt outFile.data).2) := by
  simp only [fNameFor, if_pos hk, str_data_append, List.append_assoc,
    List.singleton_append]
  rfl

/-- Distinct occurrence indices yield distinct file names under an
explicit file override. -/
theorem fNameFor_ne (outFile : String) (i j : Nat) (hij : i ≠ j) :
    fNameFor outFile i ≠ fNameFor outFile j := by
  intro heq
  have hdata := congrArg String.data heq
  have hsplit : (splitExt outFile.data).1.length + (splitExt outFile.data).2.length
      = outFile.data.length := by
    have h := congrArg List.length (splitExt_append outFile.data)
    rw [List.length_append] at h
    exact h
  rcases Nat.eq_zero_or_pos i with hi | hi
  · rcases Nat.eq_zero_or_pos j with hj | hj
    · omega
    · subst hi
      rw [fNameFor_zero] at hdata
      rw [fNameFor_pos_data outFile j hj] at hdata
      have hlen := congrArg List.length hdata
      rw [List.length_append, List.length_cons, List.length_append] at hlen
      omega
  · rcases Nat.eq_zero_or_pos j with hj | hj
    · subst hj
      rw [fNameFor_zero] at hdata
      rw [fNameFor_pos_data outFile i hi] at hdata
      have hlen := congrArg List.length hdata
      rw [List.length_append, List.length_cons, List.length_append] at hlen
      omega
    · rw [fNameFor_pos_data outFile i hi, fNameFor_pos_data outFile j hj] at hdata
      have h1 := List.append_cancel_left hdata
      have h2 : (decRepr i).data ++ (splitExt outFile.data).2 =
          (decRepr j).data ++ (splitExt outFile.data).2 := by
        simpa using h1
      have h3 := List.append_cancel_right h2
      have h4 : decRepr i = decRepr j := str_ext h3
      exact hij (decRepr_inj_pos i j (by omega) (by omega) h4)

/-- C3 (amended): saveArtifact itself produces pairwise distinct paths
under an explicit file override whenever the caller passes distinct
occurrence indices (the occurrence with positive index receiving the
_index suffix before the extension), as the blocking/batch path does by
passing the artifact loop index; the streaming paths (runRaw and the
TUI artifact handler), however, pass occurrence index 0 for every
event, so two streamed artifacts saved under --file out.json both
target out.json and the second write overwrites the first. -/
theorem c3_amended (outDir outFile : String) (a b : Artifact) (i j na nb : Nat)
    (hof : outFile ≠ "") (hij : i ≠ j) :
    (saveArtifact outDir outFile a i na).map SaveResult.path ≠
      (saveArtifact outDir outFile b j nb).map SaveResult.path := by
  intro h
  have hsimp : ∀ (art : Artifact) (k nk : Nat),
      saveArtifact outDir outFile art k nk =
        Except.ok
          { path := if outDir ≠ "" then outDir ++ "/" ++ fNameFor outFile k
                    else fNameFor outFile k,
            content := (partsContent art.parts).getD "" } := by
    intro art k nk
    simp [saveArtifact, hof]
  rw [hsimp, hsimp] at h
  simp only [Except.map, Except.ok.injEq] at h
  by_cases hd : outDir = ""
  · simp [hd] at h
    exact fNameFor_ne outFile i j hij h
  · simp [hd] at h
    have hdata := congrArg String.data h
    simp only [str_data_append, List.append_assoc] at hdata
    have h1 := List.append_cancel_left hdata
    have h2 := List.append_cancel_left h1
    exact fNameFor_ne outFile i j hij (str_ext h2)

/-- C3 witness: the amended statement at the two concrete out.json
occurrences with indices 0 and 1, together with the concrete suffixed
path of the second occurrence. -/
theorem c3_amended_witness :
    ("out.json" : String) ≠ "" ∧ (0 : Nat) ≠ 1 ∧
    (saveArtifact "" "out.json" c3Art1 0 0).map SaveResult.path ≠
      (saveArtifact "" "out.json" c3Art2 1 0).map SaveResult.path ∧
    (saveArtifact "" "out.json" c3Art2 1 0).map SaveResult.path =
      Except.ok "out_1.json" :=
  ⟨by decide, by decide,
   c3_amended "" "out.json" c3Art1 c3Art2 0 1 0 0 (by decide) (by decide),
   by rfl⟩
